import Mathlib

/-!
Shallow embedding of `main.py` (CEIDG → PostgreSQL ETL crawl).

JSON payloads are modelled by the inductive `Json`; Python `dict.get(k)`
returns `None` both when the key is absent and when it is bound to JSON
null, which `Json.pyGet` mirrors by returning `Json.null` in both cases.
Python truthiness (`bool(x)`) is mirrored by `Json.truthy`.

Stateful parts (HTTP, the relational store, transactions) are embedded by
explicit state passing: the HTTP side is an oracle giving the response of
each attempt, the store is a value `Db`, and each run produces a trace of
observable events (`Ev` for the crawl loop, `ClientEv` for the
rate-limited client) so that temporal claims become statements about
traces.
-/

/-- JSON values (the payloads exchanged with the CEIDG API). -/
inductive Json where
  | null : Json
  | str : String → Json
  | num : Int → Json
  | bool : Bool → Json
  | arr : List Json → Json
  | obj : List (String × Json) → Json

mutual

def Json.beq : Json → Json → Bool
  | .null, .null => true
  | .str a, .str b => a == b
  | .num a, .num b => a == b
  | .bool a, .bool b => a == b
  | .arr xs, .arr ys => Json.beqList xs ys
  | .obj xs, .obj ys => Json.beqFields xs ys
  | _, _ => false

def Json.beqList : List Json → List Json → Bool
  | [], [] => true
  | x :: xs, y :: ys => Json.beq x y && Json.beqList xs ys
  | _, _ => false

def Json.beqFields : List (String × Json) → List (String × Json) → Bool
  | [], [] => true
  | (k, v) :: xs, (l, w) :: ys => k == l && Json.beq v w && Json.beqFields xs ys
  | _, _ => false

end

instance : BEq Json := ⟨Json.beq⟩

/-- `d.get(k)` on a Python dict parsed from JSON: absent key and JSON null
both come back as Python `None`, here `Json.null`. On a non-dict it is not
reached by the source on well-formed payloads; we return `Json.null`. -/
def Json.pyGet : Json → String → Json
  | .obj fields, k =>
    match fields.find? (fun kv => kv.1 == k) with
    | some kv => kv.2
    | none => Json.null
  | _, _ => Json.null

/-- Python truthiness `bool(x)` of a JSON value. -/
def Json.truthy : Json → Bool
  | .null => false
  | .str s => !(s == "")
  | .num n => !(n == 0)
  | .bool b => b
  | .arr xs => !xs.isEmpty
  | .obj fs => !fs.isEmpty

/-- Python `a or b`. -/
def pyOr (a b : Json) : Json := if a.truthy then a else b

/-- Conversion used for `int(x)` and for arithmetic on the reported count;
numbers and booleans convert, everything else raises (the registry reports
the count as a number). -/
def Json.toInt? : Json → Option Int
  | .num n => some n
  | .bool b => some (if b then 1 else 0)
  | _ => none

/-- The element list of a JSON array (iteration `for rec in items`). -/
def Json.asArr : Json → List Json
  | .arr xs => xs
  | _ => []

/-- `xs[0]` of a non-empty JSON array. -/
def Json.first : Json → Json
  | .arr (x :: _) => x
  | j => j

-- ------------------------------------------------------------------
-- Module constants of `main.py`
-- ------------------------------------------------------------------

def RATE_SLEEP_SECONDS : ℚ := 37 / 10

def CONTACTABLE_TARGET : Nat := 18

def PAGE_SIZE : Nat := 25

-- ------------------------------------------------------------------
-- CEIDGClient (rate-limited HTTP client with backoff)
-- ------------------------------------------------------------------

/-- What one HTTP attempt can yield: a status code with a JSON body, or a
raised `requests` exception (timeout, connection error, bad JSON). -/
inductive HttpResp where
  | status : Nat → Json → HttpResp
  | exn : HttpResp

/-- How a fetch call can fail for its caller. -/
inductive FetchError where
  | http : Nat → FetchError
  | netExn : FetchError
  | exhausted : FetchError
deriving DecidableEq

/-- Observable actions of the client: one outbound request, or a sleep of
`k × RATE_SLEEP_SECONDS` seconds (`time.sleep(RATE_SLEEP_SECONDS * k)`). -/
inductive ClientEv where
  | req : ClientEv
  | sleepU : Nat → ClientEv
deriving DecidableEq

/-- Seconds slept by a client event. -/
def ClientEv.seconds : ClientEv → ℚ
  | .req => 0
  | .sleepU k => RATE_SLEEP_SECONDS * k

/-- `CEIDGClient.companies`: `for attempt in range(3)`, the whole attempt
wrapped in `try`. A 429 sleeps `RATE_SLEEP_SECONDS * (attempt + 2)` and
retries; any other failure (HTTP error status, network exception) is
caught by the `except`, logged, and the loop retries; a success sleeps
`RATE_SLEEP_SECONDS` and returns. After the loop: `raise RuntimeError`. -/
def companiesLoop (resp : Nat → HttpResp) : Nat → Nat → Except FetchError Json × List ClientEv
  | 0, _ => (.error .exhausted, [])
  | fuel + 1, attempt =>
    match resp attempt with
    | .exn =>
      let r := companiesLoop resp fuel (attempt + 1)
      (r.1, .req :: r.2)
    | .status c body =>
      if c == 429 then
        let r := companiesLoop resp fuel (attempt + 1)
        (r.1, .req :: .sleepU (attempt + 2) :: r.2)
      else if 400 ≤ c then
        let r := companiesLoop resp fuel (attempt + 1)
        (r.1, .req :: r.2)
      else
        (.ok body, [.req, .sleepU 1])

def companies (resp : Nat → HttpResp) : Except FetchError Json × List ClientEv :=
  companiesLoop resp 3 0

/-- `CEIDGClient.company_detail_by_link`: `for attempt in range(3)` with no
`try`. A 429 sleeps `RATE_SLEEP_SECONDS * (attempt + 2)` and retries; any
other non-success status raises out of the call at once
(`raise_for_status`), as does a network exception; a success sleeps
`RATE_SLEEP_SECONDS` and returns. After the loop: `raise RuntimeError`. -/
def detailLoop (resp : Nat → HttpResp) : Nat → Nat → Except FetchError Json × List ClientEv
  | 0, _ => (.error .exhausted, [])
  | fuel + 1, attempt =>
    match resp attempt with
    | .exn => (.error .netExn, [.req])
    | .status c body =>
      if c == 429 then
        let r := detailLoop resp fuel (attempt + 1)
        (r.1, .req :: .sleepU (attempt + 2) :: r.2)
      else if 400 ≤ c then
        (.error (.http c), [.req])
      else
        (.ok body, [.req, .sleepU 1])

def company_detail_by_link (resp : Nat → HttpResp) : Except FetchError Json × List ClientEv :=
  detailLoop resp 3 0

-- ------------------------------------------------------------------
-- RecordMapper (pure mapping of payloads to row shapes)
-- ------------------------------------------------------------------

/-- The base-tier row written by `UPSERT_BASE`. -/
structure BaseRow where
  ceidg_id : Json
  name : Json
  date_start : Json
  status : Json
  nip : Json
  link : Json

/-- The detail-tier columns written by `UPDATE_DETAILS` (the `pgx.Json`
serialization adapters are identities here). -/
structure DetailRow where
  owner : Json
  address_business : Json
  address_correspondence : Json
  citizenships : Json
  pkd_year : Json
  pkd : Json
  phone : Json
  email : Json
  www : Json
  edoreczenia : Json

/-- `map_base_record`. -/
def map_base_record (rec : Json) : BaseRow :=
  let owner := pyOr (rec.pyGet "wlasciciel") (Json.obj [])
  { ceidg_id := rec.pyGet "id"
    name := rec.pyGet "nazwa"
    date_start := rec.pyGet "dataRozpoczecia"
    status := rec.pyGet "status"
    nip := owner.pyGet "nip"
    link := rec.pyGet "link" }

/-- `pick_addr` inside `map_detail_record`: a falsy address maps to null,
otherwise the fixed allow-list of keys is kept. -/
def pick_addr (addr : Json) : Json :=
  if addr.truthy then
    Json.obj (["kraj", "kod", "miasto", "ulica", "budynek", "lokal"].map
      (fun k => (k, addr.pyGet k)))
  else Json.null

/-- `map_detail_record`. -/
def map_detail_record (detail : Json) : DetailRow :=
  { owner := detail.pyGet "wlasciciel"
    address_business := pick_addr (detail.pyGet "adresDzialalnosci")
    address_correspondence := pick_addr (detail.pyGet "adresKorespondencyjny")
    citizenships := detail.pyGet "obywatelstwa"
    pkd_year := detail.pyGet "rokPkd"
    pkd := detail.pyGet "pkd"
    phone := detail.pyGet "telefon"
    email := detail.pyGet "email"
    www := detail.pyGet "www"
    edoreczenia := detail.pyGet "adresDoreczenElektronicznych" }

/-- `is_contactable_mapped`: `bool(mapped.get("phone")) or
bool(mapped.get("email"))`. -/
def is_contactable_mapped (mapped : DetailRow) : Bool :=
  mapped.phone.truthy || mapped.email.truthy

-- ------------------------------------------------------------------
-- The relational store
-- ------------------------------------------------------------------

/-- One row of `ceidg_companies`: the base tier and, after
`UPDATE_DETAILS` succeeded, the detail tier. -/
structure Company where
  base : BaseRow
  details : Option DetailRow

/-- The store: the `ceidg_companies` table and the singleton
`ceidg_crawl_state` row (its `last_page`, `none` before the row exists). -/
structure Db where
  companies : List Company
  crawl_state : Option Nat

/-- `ensure_schema`: runs the DDL; `INSERT INTO ceidg_crawl_state(id)
VALUES (1) ON CONFLICT DO NOTHING` creates the singleton row with
`last_page = 0` only if it does not exist yet. -/
def ensure_schema (db : Db) : Db :=
  { db with crawl_state := some (db.crawl_state.getD 0) }

/-- `insert_base` (the `UPSERT_BASE` transaction). `inj` injects an
exogenous store failure (connection lost, etc.). `ON CONFLICT (ceidg_id)
DO NOTHING` makes an id conflict return `false`; a fresh id whose non-null
`nip` collides with an existing row violates the `nip UNIQUE` constraint
and raises; otherwise the row is inserted and `true` returned. -/
def insert_base (inj : Bool) (db : Db) (row : BaseRow) : Except Unit (Db × Bool) :=
  if inj then .error ()
  else if db.companies.any (fun c => c.base.ceidg_id == row.ceidg_id) then .ok (db, false)
  else if (!(row.nip == Json.null)) && db.companies.any (fun c => c.base.nip == row.nip) then
    .error ()
  else .ok ({ db with companies := db.companies ++ [⟨row, none⟩] }, true)

/-- `update_details` (the `UPDATE_DETAILS` statement): sets the detail
tier of the row whose `ceidg_id` matches; no matching row is a no-op. -/
def update_details (db : Db) (cid : Json) (d : DetailRow) : Db :=
  { db with companies :=
      db.companies.map fun c =>
        if c.base.ceidg_id == cid then { c with details := some d } else c }

/-- `existing_ids`: the subset of `ids` already present as `ceidg_id` in
the store (empty input short-circuits without a query). -/
def existing_ids (db : Db) (ids : List Json) : List Json :=
  if ids.isEmpty then []
  else (db.companies.map (fun c => c.base.ceidg_id)).filter (fun i => ids.contains i)

-- ------------------------------------------------------------------
-- run_etl (the crawl state machine)
-- ------------------------------------------------------------------

/-- Observable events of a crawl run. `fetchPage` / `fetchDetail` are the
client calls; `insertBase`, `updateDetails`, `commit`, `rollback` the
store transactions; `logErr` a `logging.exception`, `logWarn` a
`logging.warning`; `incCounter n` records `contactable_added` becoming
`n`. `updateAleo`, `saveProgress` and `loadProgress` stand for the
enrichment update (`UPDATE_ALEO`) and the crawl-progress accesses so that
their (non-)occurrence is expressible. -/
inductive Ev where
  | fetchPage : Nat → Ev
  | fetchDetail : Json → Ev
  | insertBase : Json → Ev
  | updateDetails : Json → Ev
  | updateAleo : Json → Ev
  | saveProgress : Nat → Ev
  | loadProgress : Ev
  | incCounter : Nat → Ev
  | commit : Ev
  | rollback : Ev
  | logErr : Ev
  | logWarn : Ev

/-- The external world of one run: the initial store contents, the HTTP
responses per page / per detail link and per attempt, and exogenous store
failures injected into the insert and update transactions (keyed by the
record's id). -/
structure Env where
  db0 : Db
  pageHttp : Nat → Nat → HttpResp
  detailHttp : Json → Nat → HttpResp
  insertFails : Json → Bool
  updateFails : Json → Bool

/-- Configured stopping parameters (`CONTACTABLE_TARGET`, `PAGE_SIZE`,
`all_known_pages_limit`). -/
structure Cfg where
  target : Nat
  page_size : Nat
  limit : Nat

/-- State local to one page's `for rec in items` loop. -/
structure LoopSt where
  db : Db
  contactable_added : Nat
  page_known_only : Bool

/-- Step 3 of the per-record body: the contactable counter. Returns the
events, the new state, and whether the `break` on reaching the target
fired. -/
def countPhase (cfg : Cfg) (st : LoopSt) (details : DetailRow) :
    List Ev × LoopSt × Bool :=
  if is_contactable_mapped details then
    let n := st.contactable_added + 1
    ([.incCounter n], { st with contactable_added := n }, decide (cfg.target ≤ n))
  else ([], st, false)

/-- The rest of step 2 once `detail_json` is in hand: empty `firma` list
logs and skips; otherwise the detail is mapped and `update_details` runs
in its own transaction (an injected failure rolls back and skips). -/
def afterFetch (cfg : Cfg) (env : Env) (cid : Json) (st : LoopSt) (dj : Json) :
    List Ev × LoopSt × Bool :=
  let firmy := pyOr (dj.pyGet "firma") (Json.arr [])
  if !firmy.truthy then ([.logWarn], st, false)
  else if env.updateFails cid then ([.updateDetails cid, .rollback, .logErr], st, false)
  else
    let details := map_detail_record firmy.first
    let st2 := { st with db := update_details st.db cid details }
    let r := countPhase cfg st2 details
    (.updateDetails cid :: .commit :: r.1, r.2)

/-- Step 2 of the per-record body: fetch the detail page through the
client when the link is truthy (a failing fetch is caught, rolled back,
logged and skipped); a falsy link uses `{}` without a fetch. -/
def detailPhase (cfg : Cfg) (env : Env) (cid : Json) (link : Json) (st : LoopSt) :
    List Ev × LoopSt × Bool :=
  if link.truthy then
    match (company_detail_by_link (env.detailHttp link)).1 with
    | .error _ => ([.fetchDetail link, .rollback, .logErr], st, false)
    | .ok dj =>
      let r := afterFetch cfg env cid st dj
      (.fetchDetail link :: r.1, r.2)
  else afterFetch cfg env cid st (Json.obj [])

/-- The body of `for rec in items`: skip falsy or known ids, otherwise
mark the page as containing something new, insert the base row in one
transaction (a raised insert rolls back, logs and skips; a conflict
`inserted == False` skips), then the detail and counter steps. -/
def processRecord (cfg : Cfg) (env : Env) (known : List Json) (st : LoopSt) (rec : Json) :
    List Ev × LoopSt × Bool :=
  let cid := rec.pyGet "id"
  if !cid.truthy || known.contains cid then ([], st, false)
  else
    let st1 := { st with page_known_only := false }
    let base := map_base_record rec
    match insert_base (env.insertFails cid) st1.db base with
    | .error _ => ([.insertBase cid, .rollback, .logErr], st1, false)
    | .ok (db1, inserted) =>
      let st2 := { st1 with db := db1 }
      if inserted then
        let r := detailPhase cfg env cid base.link st2
        (.insertBase cid :: .commit :: r.1, r.2)
      else ([.insertBase cid, .commit], st2, false)

/-- `for rec in items`, stopping early when the target `break` fired. -/
def processItems (cfg : Cfg) (env : Env) (known : List Json) :
    List Json → LoopSt → List Ev × LoopSt × Bool
  | [], st => ([], st, false)
  | rec :: rest, st =>
    let r := processRecord cfg env known st rec
    if r.2.2 then r
    else
      let r2 := processItems cfg env known rest r.2.1
      (r.1 ++ r2.1, r2.2)

/-- Global state of the `while` loop in `run_etl`. -/
structure EtlSt where
  db : Db
  contactable_added : Nat
  current_page : Nat
  all_known_streak : Nat

/-- How a run ends. `targetReached` is the `while` guard turning false;
`noItems`, `staleStreak` and `sourceExhausted` are the three `break`s;
`errPageFetch` is the `RuntimeError` escaping from `ceidg.companies`;
`errCountType` is the `TypeError`/`ValueError` from using a non-numeric
`count_total` in arithmetic; `fuelOut` marks an unfinished unfolding. -/
inductive EtlExit where
  | targetReached : EtlExit
  | noItems : EtlExit
  | staleStreak : EtlExit
  | sourceExhausted : EtlExit
  | errPageFetch : FetchError → EtlExit
  | errCountType : EtlExit
  | fuelOut : EtlExit
deriving DecidableEq

/-- Result of one iteration of the `while` body. -/
inductive StepRes where
  | stop : List Ev → EtlSt → EtlExit → StepRes
  | next : List Ev → EtlSt → StepRes

/-- One iteration of the `while` body of `run_etl`: fetch the page, on
page 0 log using `math.floor(count_total / PAGE_SIZE)` (raising when
`count_total` is not a number), read the items (`or` chain), handle the
empty page, dedup against the store, drain the page, update the
known-only streak, advance the page and test the reported count. -/
def etlStep (cfg : Cfg) (env : Env) (st : EtlSt) : StepRes :=
  let pg := st.current_page
  match (companies (env.pageHttp pg)).1 with
  | .error e => .stop [.fetchPage pg] st (.errPageFetch e)
  | .ok data =>
    let count_total := data.pyGet "count"
    if pg == 0 && count_total.toInt?.isNone then .stop [.fetchPage pg] st .errCountType
    else
      let items_j := pyOr (pyOr (pyOr (data.pyGet "firmy") (data.pyGet "items"))
        (data.pyGet "data")) (Json.arr [])
      if !items_j.truthy then .stop [.fetchPage pg] st .noItems
      else
        let items := items_j.asArr
        let ids := items.filterMap
          (fun r => if (r.pyGet "id").truthy then some (r.pyGet "id") else none)
        let known := existing_ids st.db ids
        let r := processItems cfg env known items ⟨st.db, st.contactable_added, true⟩
        let lst := r.2.1
        let streak := if lst.page_known_only then st.all_known_streak + 1 else 0
        let st1 : EtlSt := ⟨lst.db, lst.contactable_added, pg, streak⟩
        if cfg.limit ≤ streak then .stop (.fetchPage pg :: r.1) st1 .staleStreak
        else
          let st2 := { st1 with current_page := pg + 1 }
          if count_total == Json.null then .next (.fetchPage pg :: r.1) st2
          else
            match count_total.toInt? with
            | none => .stop (.fetchPage pg :: r.1) st2 .errCountType
            | some n =>
              if n ≤ ((pg + 1) * cfg.page_size : Int) then
                .stop (.fetchPage pg :: r.1) st2 .sourceExhausted
              else .next (.fetchPage pg :: r.1) st2

/-- `while contactable_added < CONTACTABLE_TARGET`, unfolded on fuel. -/
def etlLoop (cfg : Cfg) (env : Env) : Nat → EtlSt → List Ev × EtlSt × EtlExit
  | 0, st => ([], st, .fuelOut)
  | fuel + 1, st =>
    if st.contactable_added < cfg.target then
      match etlStep cfg env st with
      | .stop tr st' ex => (tr, st', ex)
      | .next tr st' =>
        let r := etlLoop cfg env fuel st'
        (tr ++ r.1, r.2)
    else ([], st, .targetReached)

/-- `run_etl` with the stopping parameters abstracted: connect, run the
DDL, then crawl from page 0 with zeroed counters. -/
def run_etl_cfg (cfg : Cfg) (env : Env) (fuel : Nat) : List Ev × EtlSt × EtlExit :=
  etlLoop cfg env fuel ⟨ensure_schema env.db0, 0, 0, 0⟩

/-- The config actually used by `run_etl` in the source. -/
def defaultCfg : Cfg := ⟨CONTACTABLE_TARGET, PAGE_SIZE, 300⟩

/-- `run_etl` as in the source. -/
def run_etl (env : Env) (fuel : Nat) : List Ev × EtlSt × EtlExit :=
  run_etl_cfg defaultCfg env fuel

-- ------------------------------------------------------------------
-- Concrete environments used by counterexamples and witnesses
-- ------------------------------------------------------------------

/-- A listing entry with id, nip and detail link. -/
def recX : Json := Json.obj
  [("id", .str "X1"), ("nazwa", .str "FIRMA X"), ("dataRozpoczecia", .str "2020-01-01"),
   ("status", .str "AKTYWNY"), ("wlasciciel", .obj [("nip", .str "1234567890")]),
   ("link", .str "https://api/firma/X1")]

/-- A listing page carrying `recX` and a total count of 1. -/
def pageX : Json := Json.obj [("count", .num 1), ("firmy", .arr [recX])]

/-- A detail payload whose single `firma` entry has a phone. -/
def detailX : Json := Json.obj
  [("firma", .arr [.obj [("telefon", .str "555123"), ("email", Json.null)]])]

/-- World: empty store, every page fetch returns `pageX`, every detail
fetch returns `detailX`, no injected store failures. -/
def envA : Env :=
  { db0 := ⟨[], none⟩
    pageHttp := fun _ _ => .status 200 pageX
    detailHttp := fun _ _ => .status 200 detailX
    insertFails := fun _ => false
    updateFails := fun _ => false }

-- ------------------------------------------------------------------
-- Helper lemmas
-- ------------------------------------------------------------------

/-- Splitting a list around a last element that occurs nowhere earlier:
nothing can follow it. -/
theorem eq_nil_of_append_singleton_eq {α : Type} (x : α) :
    ∀ (q l1 l2 : List α), x ∉ q → q ++ [x] = l1 ++ x :: l2 → l2 = [] := by
  intro q
  induction q with
  | nil =>
    intro l1 l2 _ h
    cases l1 with
    | nil => simpa using h.symm
    | cons a l1' =>
      have := congrArg List.length h
      simp only [List.length_append, List.length_cons, List.length_nil] at this
      omega
  | cons a q' ih =>
    intro l1 l2 hx h
    cases l1 with
    | nil =>
      simp only [List.cons_append, List.nil_append] at h
      have : a = x := (List.cons.inj h).1
      exact absurd (this ▸ List.mem_cons_self a q') hx
    | cons b l1' =>
      simp only [List.cons_append] at h
      obtain ⟨-, h2⟩ := List.cons.inj h
      exact ih l1' l2 (fun hm => hx (List.mem_cons_of_mem a hm)) h2

/-- Splitting a concatenation around an element absent from the left part:
the split lies in the right part. -/
theorem split_in_right {α : Type} (x : α) :
    ∀ (p r l1 l2 : List α), x ∉ p → p ++ r = l1 ++ x :: l2 →
      ∃ r1, r = r1 ++ x :: l2 := by
  intro p
  induction p with
  | nil =>
    intro r l1 l2 _ h
    exact ⟨l1, by simpa using h⟩
  | cons a p' ih =>
    intro r l1 l2 hx h
    cases l1 with
    | nil =>
      simp only [List.cons_append, List.nil_append] at h
      have : a = x := (List.cons.inj h).1
      exact absurd (this ▸ List.mem_cons_self a p') hx
    | cons b l1' =>
      simp only [List.cons_append] at h
      exact ih r l1' l2 (fun hm => hx (List.mem_cons_of_mem a hm)) (List.cons.inj h).2

-- ------------------------------------------------------------------
-- C7: backoff bound under persistent throttling
-- ------------------------------------------------------------------

/-- C7: under persistent throttling (every attempt answered 429), both
fetch operations issue exactly 3 requests, sleep
`RATE_SLEEP_SECONDS × (attempt + 2)` after each throttled attempt
(2×, 3×, 4× the spacing), and then fail with the retries-exhausted
error, never fewer and never more attempts. -/
theorem backoff_exactly_three_attempts (resp : Nat → HttpResp)
    (h : ∀ n, n < 3 → ∃ b, resp n = HttpResp.status 429 b) :
    companies resp =
      (.error .exhausted,
        [.req, .sleepU (0 + 2), .req, .sleepU (1 + 2), .req, .sleepU (2 + 2)]) ∧
    company_detail_by_link resp =
      (.error .exhausted,
        [.req, .sleepU (0 + 2), .req, .sleepU (1 + 2), .req, .sleepU (2 + 2)]) := by
  obtain ⟨b0, h0⟩ := h 0 (by omega)
  obtain ⟨b1, h1⟩ := h 1 (by omega)
  obtain ⟨b2, h2⟩ := h 2 (by omega)
  constructor
  · simp [companies, companiesLoop, h0, h1, h2]
  · simp [company_detail_by_link, detailLoop, h0, h1, h2]

/-- Witness for C7 at the constant-429 oracle. -/
theorem backoff_exactly_three_attempts_witness :
    companies (fun _ => HttpResp.status 429 Json.null) =
      (.error .exhausted, [.req, .sleepU 2, .req, .sleepU 3, .req, .sleepU 4]) ∧
    company_detail_by_link (fun _ => HttpResp.status 429 Json.null) =
      (.error .exhausted, [.req, .sleepU 2, .req, .sleepU 3, .req, .sleepU 4]) :=
  backoff_exactly_three_attempts (fun _ => HttpResp.status 429 Json.null)
    (fun _ _ => ⟨Json.null, rfl⟩)

-- ------------------------------------------------------------------
-- C3: which failures retry
-- ------------------------------------------------------------------

/-- An HTTP answer that is a failure but not a 429. -/
def nonRetryableResp (r : HttpResp) : Prop :=
  r = HttpResp.exn ∨ ∃ c b, r = HttpResp.status c b ∧ 400 ≤ c ∧ c ≠ 429

/-- One failing non-429 attempt of `companies` is caught and the loop
moves to the next attempt. -/
theorem companiesLoop_fail (resp : Nat → HttpResp) (fuel a : Nat)
    (h : nonRetryableResp (resp a)) :
    companiesLoop resp (fuel + 1) a =
      ((companiesLoop resp fuel (a + 1)).1, .req :: (companiesLoop resp fuel (a + 1)).2) := by
  rcases h with h | ⟨c, b, e, hc, hn⟩
  · simp [companiesLoop, h]
  · have f : (c == 429) = false := by simp [hn]
    simp [companiesLoop, e, f, hc]

/-- C3 counterexample: the page fetch receives a 500 on the first attempt
and, far from escalating it, retries and succeeds on the second attempt
(two requests issued). -/
theorem page_fetch_retries_non_429 :
    companies (fun n => if n == 0 then .status 500 Json.null else .status 200 (Json.str "ok")) =
      (.ok (Json.str "ok"), [.req, .req, .sleepU 1]) := rfl

/-- C3 amended: only the detail fetch escalates a non-429 failure
immediately with a single request and no retry; the page fetch catches
every failure (non-429 HTTP errors and network exceptions included) and
retries, failing with the retries-exhausted error after 3 attempts. -/
theorem non_429_escalation_split (resp resp2 : Nat → HttpResp) (c : Nat) (b : Json)
    (hc : 400 ≤ c) (hne : c ≠ 429) (h0 : resp 0 = .status c b)
    (h2 : ∀ n, n < 3 → nonRetryableResp (resp2 n)) :
    company_detail_by_link resp = (.error (.http c), [.req]) ∧
    companies resp2 = (.error .exhausted, [.req, .req, .req]) := by
  constructor
  · have f : (c == 429) = false := by simp [hne]
    simp [company_detail_by_link, detailLoop, h0, f, hc]
  · show companiesLoop resp2 3 0 = (.error .exhausted, [.req, .req, .req])
    rw [companiesLoop_fail resp2 2 0 (h2 0 (by omega)),
      companiesLoop_fail resp2 1 1 (h2 1 (by omega)),
      companiesLoop_fail resp2 0 2 (h2 2 (by omega))]
    rfl

/-- Witness for the amended C3 at a constant-500 oracle. -/
theorem non_429_escalation_split_witness :
    company_detail_by_link (fun _ => .status 500 Json.null) =
      (.error (.http 500), [.req]) ∧
    companies (fun _ => .status 500 Json.null) =
      (.error .exhausted, [.req, .req, .req]) :=
  non_429_escalation_split (fun _ => .status 500 Json.null) (fun _ => .status 500 Json.null)
    500 Json.null (by omega) (by omega) rfl
    (fun _ _ => Or.inr ⟨500, Json.null, rfl, by omega, by omega⟩)

-- ------------------------------------------------------------------
-- C4: the reported total count
-- ------------------------------------------------------------------

/-- A page-0 response with entries but no `count` key. -/
def pageNoCount : Json := Json.obj [("firmy", .arr [recX])]

def envB : Env := { envA with pageHttp := fun _ _ => .status 200 pageNoCount }

def pageX100 : Json := Json.obj [("count", .num 100), ("firmy", .arr [recX])]

/-- An entry with only an id (no nip, no link). -/
def recY : Json := Json.obj [("id", .str "Y1")]

/-- A later-page response with entries but no `count` key. -/
def pageY : Json := Json.obj [("firmy", .arr [recY])]

def pageEmpty : Json := Json.obj [("count", .num 100), ("firmy", .arr [])]

def envB2pages (p : Nat) : HttpResp :=
  if p == 0 then .status 200 pageX100
  else if p == 1 then .status 200 pageY
  else .status 200 pageEmpty

def envB2 : Env := { envA with pageHttp := fun p _ => envB2pages p }

/-- C4 (code bug): a page-0 response that omits the total count is not
processed: the run raises (`math.floor(count_total / PAGE_SIZE)` in the
page-0 log line with `count_total = None`) before touching any entry,
although the end-of-results check guards `count_total is not None` and a
later page without a count (here page 1) is processed normally and the
crawl moves on to page 2. -/
theorem missing_count_crashes_on_page_zero :
    (run_etl envB 1).1 = [Ev.fetchPage 0] ∧
    (run_etl envB 1).2.2 = EtlExit.errCountType ∧
    (run_etl envB2 3).1 =
      [Ev.fetchPage 0, Ev.insertBase (.str "X1"), Ev.commit,
       Ev.fetchDetail (.str "https://api/firma/X1"), Ev.updateDetails (.str "X1"),
       Ev.commit, Ev.incCounter 1, Ev.fetchPage 1, Ev.insertBase (.str "Y1"),
       Ev.commit, Ev.logWarn, Ev.fetchPage 2] ∧
    (run_etl envB2 3).2.2 = EtlExit.noItems :=
  ⟨rfl, rfl, rfl, rfl⟩

-- ------------------------------------------------------------------
-- C10: entries with a missing or empty identifier
-- ------------------------------------------------------------------

/-- C10: an entry whose identifier is falsy (missing, null or empty) is
skipped before any work: no events (no insert, no detail fetch, no
counter change), the state — including `page_known_only` — is untouched,
so for the streak it behaves exactly like an already-known entry, and the
rest of the page is processed as if the entry were not there. -/
theorem falsy_id_entry_skipped (cfg : Cfg) (env : Env) (known : List Json) (st : LoopSt)
    (rec : Json) (rest : List Json) (h : (rec.pyGet "id").truthy = false) :
    processRecord cfg env known st rec = ([], st, false) ∧
    processItems cfg env known (rec :: rest) st = processItems cfg env known rest st := by
  have h1 : processRecord cfg env known st rec = ([], st, false) := by
    simp [processRecord, h]
  refine ⟨h1, ?_⟩
  simp [processItems, h1]

/-- Initial loop state over the freshly created schema. -/
def stEmpty : LoopSt := ⟨⟨[], some 0⟩, 0, true⟩

/-- Witness for C10 at an entry `{}` with no id. -/
theorem falsy_id_entry_skipped_witness :
    processRecord defaultCfg envA [] stEmpty (Json.obj []) = ([], stEmpty, false) ∧
    processItems defaultCfg envA [] [Json.obj []] stEmpty =
      processItems defaultCfg envA [] [] stEmpty :=
  falsy_id_entry_skipped defaultCfg envA [] stEmpty (Json.obj []) [] rfl

-- ------------------------------------------------------------------
-- C1 / C2: events that never occur in any run
-- ------------------------------------------------------------------

def Ev.isUpdateAleo : Ev → Bool
  | .updateAleo _ => true
  | _ => false

def Ev.isProgressAccess : Ev → Bool
  | .saveProgress _ => true
  | .loadProgress => true
  | _ => false

/-- Events `run_etl` never emits: the enrichment update and any access to
the crawl-progress cursor. -/
def pFree (e : Ev) : Bool := !e.isUpdateAleo && !e.isProgressAccess

theorem countPhase_pf (cfg : Cfg) (st : LoopSt) (d : DetailRow) :
    ((countPhase cfg st d).1.all pFree) = true := by
  unfold countPhase
  split <;> rfl

theorem afterFetch_pf (cfg : Cfg) (env : Env) (cid : Json) (st : LoopSt) (dj : Json) :
    ((afterFetch cfg env cid st dj).1.all pFree) = true := by
  simp only [afterFetch]
  split
  · rfl
  · split
    · rfl
    · simp [List.all_cons, countPhase_pf, pFree, Ev.isUpdateAleo, Ev.isProgressAccess]

theorem detailPhase_pf (cfg : Cfg) (env : Env) (cid link : Json) (st : LoopSt) :
    ((detailPhase cfg env cid link st).1.all pFree) = true := by
  simp only [detailPhase]
  split
  · split
    · rfl
    · simp [List.all_cons, afterFetch_pf, pFree, Ev.isUpdateAleo, Ev.isProgressAccess]
  · exact afterFetch_pf ..

theorem processRecord_pf (cfg : Cfg) (env : Env) (known : List Json) (st : LoopSt)
    (rec : Json) : ((processRecord cfg env known st rec).1.all pFree) = true := by
  simp only [processRecord]
  split
  · rfl
  · split
    · rfl
    · split
      · simp [List.all_cons, detailPhase_pf, pFree, Ev.isUpdateAleo, Ev.isProgressAccess]
      · rfl

theorem processItems_pf (cfg : Cfg) (env : Env) (known : List Json) :
    ∀ (items : List Json) (st : LoopSt),
      ((processItems cfg env known items st).1.all pFree) = true := by
  intro items
  induction items with
  | nil => intro st; rfl
  | cons rec rest ih =>
    intro st
    simp only [processItems]
    split
    · exact processRecord_pf ..
    · simp [List.all_append, processRecord_pf, ih]

def StepRes.trace : StepRes → List Ev
  | .stop tr _ _ => tr
  | .next tr _ => tr

def StepRes.state : StepRes → EtlSt
  | .stop _ st _ => st
  | .next _ st => st

theorem etlStep_pf (cfg : Cfg) (env : Env) (st : EtlSt) :
    ((etlStep cfg env st).trace.all pFree) = true := by
  simp only [etlStep]
  repeat' split
  all_goals simp [StepRes.trace, List.all_cons, processItems_pf, pFree,
    Ev.isUpdateAleo, Ev.isProgressAccess]

theorem etlStep_trace_head (cfg : Cfg) (env : Env) (st : EtlSt) :
    ∃ tl, (etlStep cfg env st).trace = Ev.fetchPage st.current_page :: tl := by
  simp only [etlStep]
  repeat' split
  all_goals exact ⟨_, rfl⟩

theorem etlLoop_pf (cfg : Cfg) (env : Env) :
    ∀ (fuel : Nat) (st : EtlSt), ((etlLoop cfg env fuel st).1.all pFree) = true := by
  intro fuel
  induction fuel with
  | zero => intro st; rfl
  | succ f ih =>
    intro st
    unfold etlLoop
    split
    · cases h : etlStep cfg env st with
      | stop tr st' ex =>
        have := etlStep_pf cfg env st
        rw [h] at this
        exact this
      | next tr st' =>
        have h1 := etlStep_pf cfg env st
        rw [h] at h1
        simp only [StepRes.trace] at h1
        simp [List.all_append, h1, ih st']
    · rfl

/-- C1 (code bug): the enrichment step never happens. The first conjunct:
no run of the crawl loop ever emits the enrichment update (`UPDATE_ALEO`
is defined but never executed). The remaining conjuncts evaluate the run
at a failing input: `recX` carries a tax identifier, it is newly inserted
and its detail update succeeds, yet the trace contains no enrichment
lookup or update — against both the spec and the module docstring's
step 3. -/
theorem enrichment_never_performed (cfg : Cfg) (env : Env) (fuel : Nat) :
    ((run_etl_cfg cfg env fuel).1.all fun e => !e.isUpdateAleo) = true ∧
    (map_base_record recX).nip = Json.str "1234567890" ∧
    (run_etl_cfg ⟨1, 25, 300⟩ envA 3).1 =
      [Ev.fetchPage 0, Ev.insertBase (.str "X1"), Ev.commit,
       Ev.fetchDetail (.str "https://api/firma/X1"), Ev.updateDetails (.str "X1"),
       Ev.commit, Ev.incCounter 1] := by
  refine ⟨?_, rfl, rfl⟩
  have h := etlLoop_pf cfg env fuel ⟨ensure_schema env.db0, 0, 0, 0⟩
  rw [List.all_eq_true] at h ⊢
  intro e he
  have h2 := h e he
  simp only [pFree, Bool.and_eq_true] at h2
  exact h2.1

/-- World whose store already knows `recX` and whose progress cursor says
page 5. -/
def envC : Env := { envA with db0 := ⟨[⟨map_base_record recX, none⟩], some 5⟩ }

/-- C2 counterexample: a run over `envC` fully processes page 0 (the run
even terminates via the end-of-results check after advancing the page),
yet its whole trace is the single page fetch — no `saveProgress` is ever
emitted — and although the persisted cursor holds page 5, the fetch that
does happen is for page 0, so the cursor is not read to resume either. -/
theorem progress_cursor_unused_cex :
    run_etl envC 2 =
      ([Ev.fetchPage 0],
        ⟨⟨[⟨map_base_record recX, none⟩], some 5⟩, 0, 1, 1⟩, .sourceExhausted) := rfl

/-- C2 amended: the schema defines the crawl-progress singleton and
creates it once, but the crawl neither advances nor reads it: no run
emits a progress access, and every (non-trivial) run's first action is
fetching page 0 regardless of the stored cursor. -/
theorem progress_cursor_unused (cfg : Cfg) (env : Env) (fuel : Nat)
    (hf : 0 < fuel) (ht : 0 < cfg.target) :
    ((run_etl_cfg cfg env fuel).1.all fun e => !e.isProgressAccess) = true ∧
    (run_etl_cfg cfg env fuel).1.head? = some (Ev.fetchPage 0) := by
  constructor
  · have h := etlLoop_pf cfg env fuel ⟨ensure_schema env.db0, 0, 0, 0⟩
    rw [List.all_eq_true] at h ⊢
    intro e he
    have h2 := h e he
    simp only [pFree, Bool.and_eq_true] at h2
    exact h2.2
  · obtain ⟨f, rfl⟩ : ∃ f, fuel = f + 1 := ⟨fuel - 1, by omega⟩
    unfold run_etl_cfg etlLoop
    rw [if_pos ht]
    obtain ⟨tl, htl⟩ := etlStep_trace_head cfg env ⟨ensure_schema env.db0, 0, 0, 0⟩
    cases h : etlStep cfg env ⟨ensure_schema env.db0, 0, 0, 0⟩ with
    | stop tr st' ex =>
      rw [h] at htl
      simp only [StepRes.trace] at htl
      simp [htl]
    | next tr st' =>
      rw [h] at htl
      simp only [StepRes.trace] at htl
      simp [htl]

/-- Witness for the amended C2. -/
theorem progress_cursor_unused_witness :
    ((run_etl_cfg defaultCfg envA 1).1.all fun e => !e.isProgressAccess) = true ∧
    (run_etl_cfg defaultCfg envA 1).1.head? = some (Ev.fetchPage 0) :=
  progress_cursor_unused defaultCfg envA 1 (by omega) (by decide)

-- ------------------------------------------------------------------
-- C5: contactability and the counter
-- ------------------------------------------------------------------

/-- A detail payload entry whose phone is the empty string. -/
def detEmptyPhone : Json := Json.obj [("telefon", .str "")]

/-- World in which every detail update transaction fails. -/
def envD : Env := { envA with updateFails := fun _ => true }

/-- C5 counterexample. Left: a mapped record with phone `""` has a
non-null phone yet is not evaluated as contactable (`bool("")` is false),
so "contactable exactly when phone or email is non-null" fails. Right: a
newly inserted record whose mapped detail is contactable earns no counter
increment when its detail update fails, so "incremented exactly for newly
inserted and contactable" fails as well. -/
theorem contactable_nonnull_cex :
    ((map_detail_record detEmptyPhone).phone = Json.str "" ∧
      (map_detail_record detEmptyPhone).phone ≠ Json.null ∧
      is_contactable_mapped (map_detail_record detEmptyPhone) = false) ∧
    (is_contactable_mapped
        (map_detail_record (Json.obj [("telefon", .str "555123"), ("email", Json.null)])) = true ∧
      processRecord defaultCfg envD [] stEmpty recX =
        ([Ev.insertBase (.str "X1"), Ev.commit,
          Ev.fetchDetail (.str "https://api/firma/X1"),
          Ev.updateDetails (.str "X1"), Ev.rollback, Ev.logErr],
         ⟨⟨[⟨map_base_record recX, none⟩], some 0⟩, 0, false⟩, false)) :=
  ⟨⟨rfl, fun h => Json.noConfusion h, rfl⟩, rfl, rfl⟩

/-- C5 amended: a mapped record is evaluated as contactable exactly when
its phone or email field is truthy (non-null and non-empty); and for a
record that is newly inserted and whose detail fetch and update succeed,
the counter is incremented exactly when the mapped detail record is
contactable. -/
theorem contactable_truthiness (det : Json) (cfg : Cfg) (env : Env) (known : List Json)
    (st : LoopSt) (rec : Json) (db1 : Db) (dj : Json)
    (hid : (rec.pyGet "id").truthy = true)
    (hkn : known.contains (rec.pyGet "id") = false)
    (hins : insert_base (env.insertFails (rec.pyGet "id")) st.db (map_base_record rec) =
      .ok (db1, true))
    (hlink : (map_base_record rec).link.truthy = true)
    (hfetch : (company_detail_by_link (env.detailHttp (map_base_record rec).link)).1 = .ok dj)
    (hfirmy : (pyOr (dj.pyGet "firma") (Json.arr [])).truthy = true)
    (hupd : env.updateFails (rec.pyGet "id") = false) :
    is_contactable_mapped (map_detail_record det) =
      ((det.pyGet "telefon").truthy || (det.pyGet "email").truthy) ∧
    (processRecord cfg env known st rec).2.1.contactable_added =
      st.contactable_added +
        (if is_contactable_mapped
            (map_detail_record (pyOr (dj.pyGet "firma") (Json.arr [])).first)
          then 1 else 0) := by
  refine ⟨rfl, ?_⟩
  simp only [processRecord, hid, hkn, hins, detailPhase, hlink, hfetch, afterFetch,
    hfirmy, hupd, countPhase, Bool.not_true, Bool.or_false, Bool.false_or,
    Bool.not_false, if_false, if_true]
  split
  · simp_all
  · split <;> simp_all

/-- Witness for the amended C5 over `envA`. -/
theorem contactable_truthiness_witness :
    is_contactable_mapped (map_detail_record detEmptyPhone) =
      ((detEmptyPhone.pyGet "telefon").truthy || (detEmptyPhone.pyGet "email").truthy) ∧
    (processRecord defaultCfg envA [] stEmpty recX).2.1.contactable_added =
      stEmpty.contactable_added +
        (if is_contactable_mapped
            (map_detail_record (pyOr (detailX.pyGet "firma") (Json.arr [])).first)
          then 1 else 0) :=
  contactable_truthiness detEmptyPhone defaultCfg envA [] stEmpty recX
    ⟨[⟨map_base_record recX, none⟩], some 0⟩ detailX rfl rfl rfl rfl rfl rfl rfl

-- ------------------------------------------------------------------
-- C9: partial-failure isolation
-- ------------------------------------------------------------------

/-- World in which every detail fetch answers 500. -/
def envE : Env := { envA with detailHttp := fun _ _ => .status 500 Json.null }

/-- C9: store and fetch failures are isolated per record. (a) a fresh id
whose non-null nip collides with an existing row raises a store error,
exactly like any other insert failure; (b) a failing base insert rolls
back, logs, and skips the record; (c) a failing detail fetch after a
fresh insert rolls back, logs, and skips, keeping the inserted state;
(d) a fresh insert leaves the base-only row (no detail tier) in the
store, so a record whose detail step fails retains it; (e) a failing
detail update likewise rolls back, logs, and skips; (f) any record that
did not fire the target break — in particular every failing record, whose
flag is `false` in (b), (c), (e) — lets the loop proceed to the next
entry, so a single failing record never aborts the run. -/
theorem store_failure_isolation (cfg : Cfg) (env : Env) (known : List Json) (st : LoopSt)
    (rec : Json) (rest : List Json) :
    (∀ (db : Db) (row : BaseRow),
      (db.companies.any fun c => c.base.ceidg_id == row.ceidg_id) = false →
      (row.nip == Json.null) = false →
      (db.companies.any fun c => c.base.nip == row.nip) = true →
      insert_base false db row = .error ()) ∧
    ((rec.pyGet "id").truthy = true → known.contains (rec.pyGet "id") = false →
      insert_base (env.insertFails (rec.pyGet "id")) st.db (map_base_record rec) =
        .error () →
      processRecord cfg env known st rec =
        ([Ev.insertBase (rec.pyGet "id"), Ev.rollback, Ev.logErr],
         { st with page_known_only := false }, false)) ∧
    (∀ (db1 : Db) (e : FetchError),
      (rec.pyGet "id").truthy = true → known.contains (rec.pyGet "id") = false →
      insert_base (env.insertFails (rec.pyGet "id")) st.db (map_base_record rec) =
        .ok (db1, true) →
      (map_base_record rec).link.truthy = true →
      (company_detail_by_link (env.detailHttp (map_base_record rec).link)).1 = .error e →
      processRecord cfg env known st rec =
        ([Ev.insertBase (rec.pyGet "id"), Ev.commit,
          Ev.fetchDetail ((map_base_record rec).link), Ev.rollback, Ev.logErr],
         ⟨db1, st.contactable_added, false⟩, false)) ∧
    (∀ (inj : Bool) (db db1 : Db) (row : BaseRow),
      insert_base inj db row = .ok (db1, true) →
      Company.mk row none ∈ db1.companies) ∧
    (∀ (db1 : Db) (dj : Json),
      (rec.pyGet "id").truthy = true → known.contains (rec.pyGet "id") = false →
      insert_base (env.insertFails (rec.pyGet "id")) st.db (map_base_record rec) =
        .ok (db1, true) →
      (map_base_record rec).link.truthy = true →
      (company_detail_by_link (env.detailHttp (map_base_record rec).link)).1 = .ok dj →
      (pyOr (dj.pyGet "firma") (Json.arr [])).truthy = true →
      env.updateFails (rec.pyGet "id") = true →
      processRecord cfg env known st rec =
        ([Ev.insertBase (rec.pyGet "id"), Ev.commit,
          Ev.fetchDetail ((map_base_record rec).link), Ev.updateDetails (rec.pyGet "id"),
          Ev.rollback, Ev.logErr],
         ⟨db1, st.contactable_added, false⟩, false)) ∧
    (∀ (tr : List Ev) (st' : LoopSt),
      processRecord cfg env known st rec = (tr, st', false) →
      processItems cfg env known (rec :: rest) st =
        (tr ++ (processItems cfg env known rest st').1,
         (processItems cfg env known rest st').2)) := by
  refine ⟨?_, ?_, ?_, ?_, ?_, ?_⟩
  · intro db row h1 h2 h3
    simp [insert_base, h1, h2, h3]
  · intro hid hkn herr
    simp [processRecord, hid, hkn, herr]
  · intro db1 e hid hkn hins hlink hfet
    simp [processRecord, hid, hkn, hins, detailPhase, hlink, hfet]
  · intro inj db db1 row h
    unfold insert_base at h
    split_ifs at h with h1 h2 h3 <;> simp at h
    subst h
    simp
  · intro db1 dj hid hkn hins hlink hfet hfirmy hupdF
    simp [processRecord, hid, hkn, hins, detailPhase, hlink, hfet, afterFetch,
      hfirmy, hupdF]
  · intro tr st' h
    simp [processItems, h]

/-- Witness for C9: over `envE` the detail fetch of the freshly inserted
`recX` fails with HTTP 500; the record is rolled back, logged, skipped
with the base-only row kept, and the page loop moves on. -/
theorem store_failure_isolation_witness :
    processRecord defaultCfg envE [] stEmpty recX =
      ([Ev.insertBase (.str "X1"), Ev.commit,
        Ev.fetchDetail (.str "https://api/firma/X1"), Ev.rollback, Ev.logErr],
       ⟨⟨[⟨map_base_record recX, none⟩], some 0⟩, 0, false⟩, false) ∧
    Company.mk (map_base_record recX) none ∈
      (⟨[⟨map_base_record recX, none⟩], some 0⟩ : Db).companies := by
  have h := store_failure_isolation defaultCfg envE [] stEmpty recX []
  exact ⟨h.2.2.1 ⟨[⟨map_base_record recX, none⟩], some 0⟩ (FetchError.http 500)
      rfl rfl rfl rfl rfl,
    h.2.2.2.1 false stEmpty.db ⟨[⟨map_base_record recX, none⟩], some 0⟩
      (map_base_record recX) rfl⟩

-- ------------------------------------------------------------------
-- C8: the known-only streak
-- ------------------------------------------------------------------

theorem countPhase_flag (cfg : Cfg) (st : LoopSt) (d : DetailRow) :
    (countPhase cfg st d).2.1.page_known_only = st.page_known_only := by
  unfold countPhase
  split <;> rfl

theorem afterFetch_flag (cfg : Cfg) (env : Env) (cid : Json) (st : LoopSt) (dj : Json) :
    (afterFetch cfg env cid st dj).2.1.page_known_only = st.page_known_only := by
  simp only [afterFetch]
  split
  · rfl
  · split
    · rfl
    · simp [countPhase_flag]

theorem detailPhase_flag (cfg : Cfg) (env : Env) (cid link : Json) (st : LoopSt) :
    (detailPhase cfg env cid link st).2.1.page_known_only = st.page_known_only := by
  simp only [detailPhase]
  split
  · split
    · rfl
    · simp [afterFetch_flag]
  · simp [afterFetch_flag]

theorem processRecord_flag (cfg : Cfg) (env : Env) (known : List Json) (st : LoopSt)
    (rec : Json) :
    (processRecord cfg env known st rec).2.1.page_known_only =
      (st.page_known_only &&
        (!(rec.pyGet "id").truthy || known.contains (rec.pyGet "id"))) := by
  simp only [processRecord]
  split
  · next h => simp [h]
  · next h =>
    have hb : (!(rec.pyGet "id").truthy || known.contains (rec.pyGet "id")) = false :=
      Bool.not_eq_true _ ▸ h
    rw [hb, Bool.and_false]
    split
    · rfl
    · split
      · simp [detailPhase_flag]
      · rfl

theorem processRecord_broke_not_skip (cfg : Cfg) (env : Env) (known : List Json)
    (st : LoopSt) (rec : Json) (h : (processRecord cfg env known st rec).2.2 = true) :
    (!(rec.pyGet "id").truthy || known.contains (rec.pyGet "id")) = false := by
  cases hc : (!(rec.pyGet "id").truthy || known.contains (rec.pyGet "id")) with
  | false => rfl
  | true =>
    have : processRecord cfg env known st rec = ([], st, false) := by
      simp [processRecord, hc]
    rw [this] at h
    simp at h

/-- The `page_known_only` flag after draining a page: it stays set exactly
when every entry either has a falsy id or is already known. -/
theorem processItems_flag (cfg : Cfg) (env : Env) (known : List Json) :
    ∀ (items : List Json) (st : LoopSt),
      (processItems cfg env known items st).2.1.page_known_only =
        (st.page_known_only && items.all fun r =>
          !(r.pyGet "id").truthy || known.contains (r.pyGet "id")) := by
  intro items
  induction items with
  | nil => intro st; simp [processItems]
  | cons rec rest ih =>
    intro st
    simp only [processItems]
    split
    · next h =>
      have hskip := processRecord_broke_not_skip cfg env known st rec h
      rw [processRecord_flag, List.all_cons, hskip]
      simp
    · rw [ih, processRecord_flag, List.all_cons, Bool.and_assoc]

def StepRes.streakOk (cfg : Cfg) : StepRes → Prop
  | .stop _ st' ex => st'.all_known_streak ≤ cfg.limit ∧
      (ex = .staleStreak → st'.all_known_streak = cfg.limit)
  | .next _ st' => st'.all_known_streak < cfg.limit

theorem etlStep_streak (cfg : Cfg) (env : Env) (st : EtlSt) (hlim : 0 < cfg.limit)
    (h : st.all_known_streak < cfg.limit) : (etlStep cfg env st).streakOk cfg := by
  simp only [etlStep]
  repeat' split
  all_goals simp_all [StepRes.streakOk]
  all_goals omega

theorem etlLoop_streak (cfg : Cfg) (env : Env) (hlim : 0 < cfg.limit) :
    ∀ (fuel : Nat) (st : EtlSt), st.all_known_streak < cfg.limit →
      (etlLoop cfg env fuel st).2.1.all_known_streak ≤ cfg.limit ∧
      ((etlLoop cfg env fuel st).2.2 = .staleStreak →
        (etlLoop cfg env fuel st).2.1.all_known_streak = cfg.limit) := by
  intro fuel
  induction fuel with
  | zero =>
    intro st h
    exact ⟨le_of_lt h, by simp [etlLoop]⟩
  | succ f ih =>
    intro st h
    unfold etlLoop
    split
    · cases hstep : etlStep cfg env st with
      | stop tr st' ex =>
        have hs := etlStep_streak cfg env st hlim h
        rw [hstep] at hs
        exact hs
      | next tr st' =>
        have hs := etlStep_streak cfg env st hlim h
        rw [hstep] at hs
        exact ih st' hs
    · exact ⟨le_of_lt h, by simp⟩

/-- C8: after each page the known-only streak is incremented when every
entry was falsy-id or already known and reset to 0 otherwise (third
conjunct, via the `page_known_only` law; the increment/reset itself is
the `streak` binding of `etlStep`); the run's streak never exceeds the
configured limit, and a run that stops for the stale-streak reason stops
with the streak exactly at the limit — it processed no more consecutive
known-only pages than the limit. -/
theorem stale_streak_termination (cfg : Cfg) (env : Env) (fuel : Nat) (known : List Json)
    (items : List Json) (st : LoopSt) (hlim : 0 < cfg.limit) :
    (run_etl_cfg cfg env fuel).2.1.all_known_streak ≤ cfg.limit ∧
    ((run_etl_cfg cfg env fuel).2.2 = .staleStreak →
      (run_etl_cfg cfg env fuel).2.1.all_known_streak = cfg.limit) ∧
    (processItems cfg env known items st).2.1.page_known_only =
      (st.page_known_only && items.all fun r =>
        !(r.pyGet "id").truthy || known.contains (r.pyGet "id")) := by
  have h := etlLoop_streak cfg env hlim fuel ⟨ensure_schema env.db0, 0, 0, 0⟩ hlim
  exact ⟨h.1, h.2, processItems_flag ..⟩

/-- Witness for C8: with streak limit 1 over a store that already knows
the only listed record, the run stops by stale streak at streak 1. -/
theorem stale_streak_termination_witness :
    (run_etl_cfg ⟨5, 25, 1⟩ envC 2).2.1.all_known_streak ≤ 1 ∧
    ((run_etl_cfg ⟨5, 25, 1⟩ envC 2).2.2 = .staleStreak →
      (run_etl_cfg ⟨5, 25, 1⟩ envC 2).2.1.all_known_streak = 1) ∧
    (processItems ⟨5, 25, 1⟩ envC [Json.str "X1"] [recX] stEmpty).2.1.page_known_only =
      (stEmpty.page_known_only && [recX].all fun r =>
        !(r.pyGet "id").truthy || [Json.str "X1"].contains (r.pyGet "id")) :=
  stale_streak_termination ⟨5, 25, 1⟩ envC 2 [Json.str "X1"] [recX] stEmpty (by decide)

-- ------------------------------------------------------------------
-- C6: reaching the target stops the run
-- ------------------------------------------------------------------

/-- Spec of a page-drain result relative to the target: if the break did
not fire, the counter is still below the target and the target-hitting
counter event is absent; if it fired, the counter equals the target and
that event is the very last event of the produced trace. -/
abbrev CtrSpec (cfg : Cfg) (r : List Ev × LoopSt × Bool) : Prop :=
  (r.2.2 = false → r.2.1.contactable_added < cfg.target ∧
    Ev.incCounter cfg.target ∉ r.1) ∧
  (r.2.2 = true → r.2.1.contactable_added = cfg.target ∧
    ∃ pre, r.1 = pre ++ [Ev.incCounter cfg.target] ∧ Ev.incCounter cfg.target ∉ pre)

theorem CtrSpec.prepend {cfg : Cfg} (p : List Ev) {r : List Ev × LoopSt × Bool}
    (hp : Ev.incCounter cfg.target ∉ p) (h : CtrSpec cfg r) :
    CtrSpec cfg (p ++ r.1, r.2) := by
  constructor
  · intro hb
    obtain ⟨h1, h2⟩ := h.1 hb
    exact ⟨h1, by simp [List.mem_append, hp, h2]⟩
  · intro hb
    obtain ⟨h1, pre, hpre, hnot⟩ := h.2 hb
    exact ⟨h1, p ++ pre, by rw [hpre, List.append_assoc],
      by simp [List.mem_append, hp, hnot]⟩

theorem countPhase_ctr (cfg : Cfg) (st : LoopSt) (d : DetailRow)
    (h : st.contactable_added < cfg.target) : CtrSpec cfg (countPhase cfg st d) := by
  unfold countPhase
  split
  · refine ⟨fun hb => ?_, fun hb => ?_⟩
    · have hlt : ¬ (cfg.target ≤ st.contactable_added + 1) := of_decide_eq_false hb
      refine ⟨?_, ?_⟩
      · show st.contactable_added + 1 < cfg.target
        omega
      · simp only [List.mem_singleton, Ev.incCounter.injEq]
        omega
    · have hle : cfg.target ≤ st.contactable_added + 1 := of_decide_eq_true hb
      have heq : cfg.target = st.contactable_added + 1 := by omega
      refine ⟨?_, [], ?_, by simp⟩
      · show st.contactable_added + 1 = cfg.target
        omega
      · simp [heq]
  · exact ⟨fun _ => ⟨h, by simp⟩, fun hb => absurd hb (by simp)⟩

theorem afterFetch_ctr (cfg : Cfg) (env : Env) (cid : Json) (st : LoopSt) (dj : Json)
    (h : st.contactable_added < cfg.target) :
    CtrSpec cfg (afterFetch cfg env cid st dj) := by
  simp only [afterFetch]
  split
  · exact ⟨fun _ => ⟨h, by simp⟩, fun hb => absurd hb (by simp)⟩
  · split
    · exact ⟨fun _ => ⟨h, by simp⟩, fun hb => absurd hb (by simp)⟩
    · exact CtrSpec.prepend [.updateDetails cid, .commit] (by simp)
        (countPhase_ctr cfg _ _ h)

theorem detailPhase_ctr (cfg : Cfg) (env : Env) (cid link : Json) (st : LoopSt)
    (h : st.contactable_added < cfg.target) :
    CtrSpec cfg (detailPhase cfg env cid link st) := by
  simp only [detailPhase]
  split
  · split
    · exact ⟨fun _ => ⟨h, by simp⟩, fun hb => absurd hb (by simp)⟩
    · exact CtrSpec.prepend [.fetchDetail link] (by simp) (afterFetch_ctr cfg env cid st _ h)
  · exact afterFetch_ctr cfg env cid st _ h

theorem processRecord_ctr (cfg : Cfg) (env : Env) (known : List Json) (st : LoopSt)
    (rec : Json) (h : st.contactable_added < cfg.target) :
    CtrSpec cfg (processRecord cfg env known st rec) := by
  simp only [processRecord]
  split
  · exact ⟨fun _ => ⟨h, by simp⟩, fun hb => absurd hb (by simp)⟩
  · split
    · exact ⟨fun _ => ⟨h, by simp⟩, fun hb => absurd hb (by simp)⟩
    · split
      · exact CtrSpec.prepend [.insertBase (rec.pyGet "id"), .commit] (by simp)
          (detailPhase_ctr cfg env _ _ _ h)
      · exact ⟨fun _ => ⟨h, by simp⟩, fun hb => absurd hb (by simp)⟩

theorem processItems_ctr (cfg : Cfg) (env : Env) (known : List Json) :
    ∀ (items : List Json) (st : LoopSt), st.contactable_added < cfg.target →
      CtrSpec cfg (processItems cfg env known items st) := by
  intro items
  induction items with
  | nil =>
    intro st h
    exact ⟨fun _ => ⟨h, by simp [processItems]⟩,
      fun hb => absurd hb (by simp [processItems])⟩
  | cons rec rest ih =>
    intro st h
    have hr := processRecord_ctr cfg env known st rec h
    simp only [processItems]
    split
    · next hb => exact hr
    · next hb =>
      have hb' : (processRecord cfg env known st rec).2.2 = false := by
        simpa using hb
      obtain ⟨hlt, hnot⟩ := hr.1 hb'
      exact CtrSpec.prepend _ hnot (ih _ hlt)

/-- Counter/trace spec of one `while` iteration. -/
abbrev StepCtr (cfg : Cfg) (tr : List Ev) (st' : EtlSt) : Prop :=
  (st'.contactable_added < cfg.target ∧ Ev.incCounter cfg.target ∉ tr) ∨
  (st'.contactable_added = cfg.target ∧
    ∃ pre, tr = pre ++ [Ev.incCounter cfg.target] ∧ Ev.incCounter cfg.target ∉ pre)

def StepRes.ctrOk (cfg : Cfg) : StepRes → Prop
  | .stop tr st' _ => StepCtr cfg tr st'
  | .next tr st' => StepCtr cfg tr st'

theorem StepCtr.of_items (cfg : Cfg) (pg : Nat) (r : List Ev × LoopSt × Bool)
    (hr : CtrSpec cfg r) (st' : EtlSt)
    (hcount : st'.contactable_added = r.2.1.contactable_added) :
    StepCtr cfg (Ev.fetchPage pg :: r.1) st' := by
  cases hb : r.2.2 with
  | false =>
    obtain ⟨h1, h2⟩ := hr.1 hb
    exact Or.inl ⟨hcount ▸ h1, by simp [h2]⟩
  | true =>
    obtain ⟨h1, pre, hpre, hnot⟩ := hr.2 hb
    exact Or.inr ⟨hcount ▸ h1, Ev.fetchPage pg :: pre, by simp [hpre], by simp [hnot]⟩

theorem etlStep_ctr (cfg : Cfg) (env : Env) (st : EtlSt)
    (h : st.contactable_added < cfg.target) : (etlStep cfg env st).ctrOk cfg := by
  simp only [etlStep]
  repeat' split
  all_goals first
    | exact Or.inl ⟨h, by simp⟩
    | exact StepCtr.of_items cfg st.current_page _
        (processItems_ctr cfg env _ _ _ h) _ rfl

theorem etlLoop_target_stops (cfg : Cfg) (env : Env) :
    ∀ (fuel : Nat) (st : EtlSt) (l1 l2 : List Ev),
      (etlLoop cfg env fuel st).1 = l1 ++ Ev.incCounter cfg.target :: l2 → l2 = [] := by
  intro fuel
  induction fuel with
  | zero =>
    intro st l1 l2 h
    simp [etlLoop] at h
  | succ f ih =>
    intro st l1 l2 h
    by_cases hg : st.contactable_added < cfg.target
    · rw [show etlLoop cfg env (f + 1) st =
          (if st.contactable_added < cfg.target then
            match etlStep cfg env st with
            | .stop tr st' ex => (tr, st', ex)
            | .next tr st' =>
              let r := etlLoop cfg env f st'
              (tr ++ r.1, r.2)
          else ([], st, .targetReached)) from rfl, if_pos hg] at h
      cases hstep : etlStep cfg env st with
      | stop tr st' ex =>
        rw [hstep] at h
        have hc := etlStep_ctr cfg env st hg
        rw [hstep] at hc
        simp only [StepRes.ctrOk] at hc
        rcases hc with ⟨-, hnot⟩ | ⟨-, pre, hpre, hnot⟩
        · have : Ev.incCounter cfg.target ∈ tr := by
            rw [show tr = (tr, st', ex).1 from rfl, h]
            simp
          exact absurd this hnot
        · exact eq_nil_of_append_singleton_eq _ pre l1 l2 hnot (hpre.symm.trans h)
      | next tr st' =>
        rw [hstep] at h
        simp only at h
        have hc := etlStep_ctr cfg env st hg
        rw [hstep] at hc
        simp only [StepRes.ctrOk] at hc
        rcases hc with ⟨-, hnot⟩ | ⟨heq, pre, hpre, hnot⟩
        · obtain ⟨r1, hr1⟩ := split_in_right _ tr _ l1 l2 hnot h
          exact ih st' r1 l2 hr1
        · have hrest : (etlLoop cfg env f st').1 = [] := by
            cases f with
            | zero => rfl
            | succ f' =>
              rw [show etlLoop cfg env (f' + 1) st' =
                  (if st'.contactable_added < cfg.target then
                    match etlStep cfg env st' with
                    | .stop tr2 st2 ex2 => (tr2, st2, ex2)
                    | .next tr2 st2 =>
                      let r := etlLoop cfg env f' st2
                      (tr2 ++ r.1, r.2)
                  else ([], st', .targetReached)) from rfl,
                if_neg (by omega)]
          rw [hrest, List.append_nil] at h
          exact eq_nil_of_append_singleton_eq _ pre l1 l2 hnot (hpre.symm.trans h)
    · rw [show etlLoop cfg env (f + 1) st =
          (if st.contactable_added < cfg.target then
            match etlStep cfg env st with
            | .stop tr st' ex => (tr, st', ex)
            | .next tr st' =>
              let r := etlLoop cfg env f st'
              (tr ++ r.1, r.2)
          else ([], st, .targetReached)) from rfl, if_neg hg] at h
      simp at h

/-- C6: the event with which `contactable_added` reaches the configured
target is the last event of the entire run: whatever follows it in any
split of the trace is empty, so the remaining entries of the page are
abandoned and no further page or detail fetch occurs after the record
that reached the target. -/
theorem target_reached_stops (cfg : Cfg) (env : Env) (fuel : Nat) (l1 l2 : List Ev)
    (h : (run_etl_cfg cfg env fuel).1 = l1 ++ Ev.incCounter cfg.target :: l2) :
    l2 = [] :=
  etlLoop_target_stops cfg env fuel _ l1 l2 h

/-- Witness for C6: with target 1 over `envA`, the run's trace ends at
`incCounter 1` and the theorem confirms nothing follows it. -/
theorem target_reached_stops_witness :
    (run_etl_cfg ⟨1, 25, 300⟩ envA 3).1 =
      [Ev.fetchPage 0, Ev.insertBase (.str "X1"), Ev.commit,
       Ev.fetchDetail (.str "https://api/firma/X1"), Ev.updateDetails (.str "X1"),
       Ev.commit] ++ Ev.incCounter (⟨1, 25, 300⟩ : Cfg).target :: [] ∧
    ([] : List Ev) = [] :=
  ⟨rfl, target_reached_stops ⟨1, 25, 300⟩ envA 3
    [Ev.fetchPage 0, Ev.insertBase (.str "X1"), Ev.commit,
     Ev.fetchDetail (.str "https://api/firma/X1"), Ev.updateDetails (.str "X1"),
     Ev.commit] [] rfl⟩
